/-
Verification of the annotation-processing pipeline
(scripts/process_annotations.py).

The pipeline is embedded shallowly:

* a pandas `DataFrame` of annotation rows is a `List AnnotationRow`
  (row order = frame order; the index plays no observable role in the
  script's logic);
* a `float` confidence score is an `Option ℚ`: `some s` for a numeric
  value, `none` for a missing value (pandas `NaN`); every numeric
  comparison against `NaN` is `False` in pandas, which `keepRow`
  reflects by returning `false` on `none`;
* `groupby("text")` sorts its group keys (pandas default `sort=True`),
  which `detect_disagreements` reflects by sorting the disagreed texts;
* a Python `set` of labels is a duplicate-free list (`dedupFirst`);
  claims about it only use membership and cardinality, which do not
  depend on the iteration order chosen;
* file writing in mode "w" truncates, so the resulting file content is a
  function of the written records alone, independent of prior content.
-/
import Mathlib

/-- One annotation row: `text,label,annotator_id,confidence_score`.
`confidence_score = none` models a missing (NaN) value. -/
structure AnnotationRow where
  text : String
  label : String
  annotator_id : String
  confidence_score : Option ℚ
deriving DecidableEq, Repr

/-- A pandas DataFrame of annotation rows, as its ordered row list. -/
abbrev AnnotationTable := List AnnotationRow

/-- The script's `CONF_THRESHOLD = 0.8`. -/
def CONF_THRESHOLD : ℚ := 4 / 5

/-- The boolean mask `df["confidence_score"] >= threshold` on one row.
A missing score (pandas NaN) compares `False`. -/
def keepRow (threshold : ℚ) (r : AnnotationRow) : Bool :=
  match r.confidence_score with
  | some s => decide (threshold ≤ s)
  | none => false

/-- `filter_by_confidence`: `df[df["confidence_score"] >= threshold].copy()`. -/
def filter_by_confidence (df : AnnotationTable) (threshold : ℚ) : AnnotationTable :=
  df.filter (keepRow threshold)

/-- Remove duplicates keeping the FIRST occurrence of each element
(pandas `drop_duplicates` semantics; also our determinisation of a
Python set built by a left-to-right pass). `List.dedup` keeps last
occurrences, so we dedup the reversal. -/
def dedupFirst {α : Type} [DecidableEq α] (l : List α) : List α :=
  l.reverse.dedup.reverse

/-- `df[df["text"] == t]`: the rows for text `t`, in frame order. -/
def rowsFor (df : AnnotationTable) (t : String) : AnnotationTable :=
  df.filter (fun r => r.text == t)

/-- The label set `df.groupby("text")["label"].agg(set)` at key `t`,
as a duplicate-free list. -/
def labelsOf (df : AnnotationTable) (t : String) : List String :=
  dedupFirst ((rowsFor df t).map AnnotationRow.label)

/-- The distinct texts of the frame, first occurrence first
(the domain of the `groupby("text")` result). -/
def textsOf (df : AnnotationTable) : List String :=
  dedupFirst (df.map AnnotationRow.text)

/-- `label_sets[label_sets.apply(len) > 1].index`, before the sort that
`groupby` applies to its keys: the texts carrying at least two distinct
labels, in first-occurrence order. -/
def disagreedTexts (df : AnnotationTable) : List String :=
  (textsOf df).filter (fun t => decide (1 < (labelsOf df t).length))

/-- `label_sets[label_sets.apply(len) == 1].index`: the agreed texts. -/
def agreedTexts (df : AnnotationTable) : List String :=
  (textsOf df).filter (fun t => decide ((labelsOf df t).length = 1))

/-- One structured disagreement record, as built in `detect_disagreements`. -/
structure DisagreementRecord where
  text : String
  labels : List String
  annotators : List String
  confidence_scores : List (Option ℚ)
deriving DecidableEq, Repr

/-- The record appended for one disagreed text: its label set and the
`annotator_id` / `confidence_score` columns of `df[df["text"] == text]`. -/
def mkRecord (df : AnnotationTable) (t : String) : DisagreementRecord :=
  { text := t
    labels := labelsOf df t
    annotators := (rowsFor df t).map AnnotationRow.annotator_id
    confidence_scores := (rowsFor df t).map AnnotationRow.confidence_score }

/-- `detect_disagreements`: one record per disagreed text, iterated in
the sorted key order of `groupby("text")` (pandas sorts group keys). -/
def detect_disagreements (df : AnnotationTable) : List DisagreementRecord :=
  (List.insertionSort (fun a b => a ≤ b) (disagreedTexts df)).map (mkRecord df)

/-- An exported `(text, label)` pair. -/
structure AgreedPair where
  text : String
  label : String
deriving DecidableEq, Repr

/-- `extract_agreed`:
`df[df["text"].isin(agreed_texts)][["text", "label"]].drop_duplicates()`. -/
def extract_agreed (df : AnnotationTable) : List AgreedPair :=
  dedupFirst ((df.filter (fun r => decide (r.text ∈ agreedTexts df))).map
    (fun r => { text := r.text, label := r.label }))

/-! ### JSONL export (`export_jsonl`) -/

/-- One hexadecimal digit, lowercase (as CPython's `\uXXXX` escapes). -/
def hexDigit (n : Nat) : Char :=
  if n < 10 then Char.ofNat (48 + n) else Char.ofNat (87 + n)

/-- Four-digit lowercase hex, for `\uXXXX` escapes of control characters. -/
def hex4 (n : Nat) : String :=
  String.mk [hexDigit (n / 4096 % 16), hexDigit (n / 256 % 16),
             hexDigit (n / 16 % 16), hexDigit (n % 16)]

/-- How `json.dumps(..., ensure_ascii=False)` renders one character inside a
string literal: escape backslash, quote and control characters; every other
character — all non-ASCII included — is emitted literally. -/
def escapeChar (c : Char) : String :=
  if c = '\\' then "\\\\"
  else if c = '"' then "\\\""
  else if c = Char.ofNat 8 then "\\b"
  else if c = Char.ofNat 9 then "\\t"
  else if c = Char.ofNat 10 then "\\n"
  else if c = Char.ofNat 12 then "\\f"
  else if c = Char.ofNat 13 then "\\r"
  else if c.toNat < 32 then "\\u" ++ hex4 c.toNat
  else String.singleton c

/-- A JSON string literal under `ensure_ascii=False`. -/
def encodeJsonString (s : String) : String :=
  "\"" ++ String.join (s.toList.map escapeChar) ++ "\""

/-- Values appearing in the flat JSON objects this script emits. -/
inductive JsonVal where
  | str : String → JsonVal
deriving DecidableEq, Repr

/-- One `key: value` member, with `json.dumps`'s default `": "` separator. -/
def renderMember : String × JsonVal → String
  | (k, JsonVal.str v) => encodeJsonString k ++ ": " ++ encodeJsonString v

/-- Join with a separator (no trailing separator). -/
def joinSep (sep : String) : List String → String
  | [] => ""
  | [x] => x
  | x :: y :: xs => x ++ sep ++ joinSep sep (y :: xs)

/-- A JSON object with the given members, in the given key order, with
`json.dumps`'s default `", "` item separator. -/
def renderObj (members : List (String × JsonVal)) : String :=
  "\x7b" ++ joinSep ", " (members.map renderMember) ++ "\x7d"

/-- The line written for one pair:
`json.dumps(\x7b"text": text, "label": label\x7d, ensure_ascii=False)`. -/
def encodeLine (p : AgreedPair) : String :=
  renderObj [("text", JsonVal.str p.text), ("label", JsonVal.str p.label)]

/-- The lines `export_jsonl` writes, one per pair, in order. -/
def export_jsonl (pairs : List AgreedPair) : List String :=
  pairs.map encodeLine

/-- Each line is written followed by `"\n"`. -/
def unlines : List String → String
  | [] => ""
  | x :: xs => x ++ "\n" ++ unlines xs

/-- The file content after `export_jsonl(df, path)`: `path.open("w")`
truncates, so the previous content of the destination is discarded and the
result is exactly the written lines. -/
def export_jsonl_file (pairs : List AgreedPair) (_oldContent : String) : String :=
  unlines (export_jsonl pairs)

/-! ### Audit log and `main` -/

/-- One entry of the audit log file. `logging.info(json.dumps(rec, ...))`
is abstracted as `record rec`: the claims under audit concern which entries
are emitted, not the byte rendering of a record. -/
inductive AuditEntry where
  | msg : String → AuditEntry
  | record : DisagreementRecord → AuditEntry
deriving DecidableEq, Repr

/-- The audit entries `main` emits for the disagreement list: a header line
then one entry per record when non-empty, the explicit zero marker when
empty. -/
def auditEntries (disagreements : List DisagreementRecord) : List AuditEntry :=
  if disagreements.isEmpty then [AuditEntry.msg "Disagreed samples: 0"]
  else AuditEntry.msg "Disagreed samples:" :: disagreements.map AuditEntry.record

/-- The observable outcome of one run of `main`. -/
structure RunResult where
  auditLog : List AuditEntry
  exportContent : String
deriving DecidableEq, Repr

/-- `main`: filter by `CONF_THRESHOLD`, detect disagreements, log them,
extract the agreed pairs and export them, overwriting the export file
(whose previous content is `oldExport`). -/
def mainRun (df_raw : AnnotationTable) (oldExport : String) : RunResult :=
  let df_conf := filter_by_confidence df_raw CONF_THRESHOLD
  let disagreements := detect_disagreements df_conf
  let df_clean := extract_agreed df_conf
  { auditLog := auditEntries disagreements
    exportContent := export_jsonl_file df_clean oldExport }

/-! ### Frame store, for the mutation/aliasing claim

`filter_by_confidence` ends in `.copy()`: the frame it returns is a fresh
object, not a view that aliases the caller's frame. To state that, frames
live in a store of object identities (a reference is an index). -/

/-- A heap of DataFrame objects; a reference is an index into it. -/
structure FrameStore where
  frames : List AnnotationTable
deriving Repr

/-- Dereference (an out-of-range reference reads as an empty frame). -/
def readFrame (s : FrameStore) (ref : Nat) : AnnotationTable :=
  s.frames.getD ref []

/-- Allocate a fresh frame object, returning the new store and its
reference. -/
def allocFrame (s : FrameStore) (t : AnnotationTable) : FrameStore × Nat :=
  ({ frames := s.frames ++ [t] }, s.frames.length)

/-- `filter_by_confidence` at the object level: read the argument frame,
build the mask selection, and `.copy()` it into a fresh object. The store
entry of the argument is never written. -/
def filter_by_confidence_op (s : FrameStore) (ref : Nat) (threshold : ℚ) :
    FrameStore × Nat :=
  allocFrame s (filter_by_confidence (readFrame s ref) threshold)

/-- Number of disagreement records carrying a given text. -/
def recordCount (df : AnnotationTable) (t : String) : Nat :=
  ((detect_disagreements df).filter (fun rec => rec.text == t)).length

/-- Number of exported agreed pairs carrying a given text. -/
def pairCount (df : AnnotationTable) (t : String) : Nat :=
  ((extract_agreed df).filter (fun p => p.text == t)).length

/-- The spec's end-to-end scenario ("hi" agreed, "bye" disagreed), with
integer-valued confidence scores so witnesses evaluate in the kernel. -/
def exampleTable : AnnotationTable :=
  [⟨"hi", "greet", "A1", some 1⟩, ⟨"hi", "greet", "A2", some 1⟩,
   ⟨"bye", "farewell", "A1", some 1⟩, ⟨"bye", "greet", "A2", some 1⟩]

/-! ### Helper lemmas -/

theorem mem_dedupFirst {α : Type} [DecidableEq α] {a : α} {l : List α} :
    a ∈ dedupFirst l ↔ a ∈ l := by
  simp [dedupFirst]

theorem nodup_dedupFirst {α : Type} [DecidableEq α] (l : List α) :
    (dedupFirst l).Nodup := by
  simp [dedupFirst, List.nodup_dedup]

theorem dedupFirst_sublist {α : Type} [DecidableEq α] (l : List α) :
    List.Sublist (dedupFirst l) l := by
  have h : List.Sublist l.reverse.dedup.reverse l.reverse.reverse :=
    (List.dedup_sublist l.reverse).reverse
  simpa [dedupFirst] using h

theorem mem_rowsFor {df : AnnotationTable} {t : String} {r : AnnotationRow} :
    r ∈ rowsFor df t ↔ r ∈ df ∧ r.text = t := by
  simp [rowsFor]

theorem mem_textsOf {df : AnnotationTable} {t : String} :
    t ∈ textsOf df ↔ ∃ r ∈ df, r.text = t := by
  simp [textsOf, mem_dedupFirst]

theorem mem_labelsOf {df : AnnotationTable} {t : String} {L : String} :
    L ∈ labelsOf df t ↔ ∃ r ∈ df, r.text = t ∧ r.label = L := by
  simp only [labelsOf, mem_dedupFirst, List.mem_map, mem_rowsFor]
  constructor
  · rintro ⟨r, ⟨hr, ht⟩, hl⟩
    exact ⟨r, hr, ht, hl⟩
  · rintro ⟨r, hr, ht, hl⟩
    exact ⟨r, ⟨hr, ht⟩, hl⟩

theorem labelsOf_length_pos {df : AnnotationTable} {t : String}
    (h : t ∈ textsOf df) : 0 < (labelsOf df t).length := by
  rw [mem_textsOf] at h
  obtain ⟨r, hr, ht⟩ := h
  have hmem : r.label ∈ labelsOf df t := mem_labelsOf.mpr ⟨r, hr, ht, rfl⟩
  exact List.length_pos.mpr (List.ne_nil_of_mem hmem)

theorem mem_disagreedTexts {df : AnnotationTable} {t : String} :
    t ∈ disagreedTexts df ↔ t ∈ textsOf df ∧ 1 < (labelsOf df t).length := by
  simp [disagreedTexts]

theorem mem_agreedTexts {df : AnnotationTable} {t : String} :
    t ∈ agreedTexts df ↔ t ∈ textsOf df ∧ (labelsOf df t).length = 1 := by
  simp [agreedTexts]

theorem nodup_disagreedTexts (df : AnnotationTable) : (disagreedTexts df).Nodup :=
  (nodup_dedupFirst _).filter _

/-- Filtering after a map has the same length as filtering the preimages. -/
theorem length_filter_of_map {α β : Type} (f : α → β) (p : β → Bool) (l : List α) :
    ((l.map f).filter p).length = (l.filter (fun a => p (f a))).length := by
  induction l with
  | nil => rfl
  | cons a l ih => cases h : p (f a) <;> simp [List.filter_cons, h, ih]

/-- In a duplicate-free list where the predicate singles out one element,
the filtered length is exactly one. -/
theorem length_filter_eq_one {α : Type} {l : List α} {q : α → Bool} {a : α}
    (hn : l.Nodup) (ha : a ∈ l) (hqa : q a = true)
    (huniq : ∀ x ∈ l, q x = true → x = a) :
    (l.filter q).length = 1 := by
  have h1 : a ∈ l.filter q := List.mem_filter.mpr ⟨ha, hqa⟩
  have hn2 : (l.filter q).Nodup := hn.filter q
  have hall : ∀ x ∈ l.filter q, x = a := by
    intro x hx
    have hx2 := List.mem_filter.mp hx
    exact huniq x hx2.1 hx2.2
  cases hfl : l.filter q with
  | nil => rw [hfl] at h1; cases h1
  | cons b rest =>
    rw [hfl] at hn2 hall
    have hb : b = a := hall b (List.mem_cons_self b rest)
    have hrest : rest = [] := by
      cases hcr : rest with
      | nil => rfl
      | cons c rest2 =>
        have hc : c = a := hall c (by
          rw [hcr]
          exact List.mem_cons_of_mem _ (List.mem_cons_self c rest2))
        have hnotin : b ∉ rest := (List.nodup_cons.mp hn2).1
        rw [hcr] at hnotin
        exact absurd (by rw [hc, ← hb]; exact List.mem_cons_self b rest2) hnotin
    rw [hrest]
    rfl

theorem detect_texts (df : AnnotationTable) :
    (detect_disagreements df).map DisagreementRecord.text
      = List.insertionSort (fun a b => a ≤ b) (disagreedTexts df) := by
  unfold detect_disagreements
  rw [List.map_map]
  exact List.map_id _

theorem recordCount_eq_count (df : AnnotationTable) (t : String) :
    recordCount df t = (disagreedTexts df).count t := by
  unfold recordCount detect_disagreements
  rw [length_filter_of_map]
  have hlen : ((List.insertionSort (fun a b => a ≤ b) (disagreedTexts df)).filter
      (fun s => (mkRecord df s).text == t)).length
      = (List.insertionSort (fun a b => a ≤ b) (disagreedTexts df)).count t := by
    rw [List.count, List.countP_eq_length_filter]
    rfl
  rw [hlen]
  exact (List.perm_insertionSort _ _).count_eq t

theorem recordCount_of_disagreed {df : AnnotationTable} {t : String}
    (h : t ∈ disagreedTexts df) : recordCount df t = 1 := by
  rw [recordCount_eq_count]
  exact List.count_eq_one_of_mem (nodup_disagreedTexts df) h

theorem recordCount_of_not_disagreed {df : AnnotationTable} {t : String}
    (h : t ∉ disagreedTexts df) : recordCount df t = 0 := by
  rw [recordCount_eq_count]
  exact List.count_eq_zero_of_not_mem h

theorem mem_extract_agreed {df : AnnotationTable} {p : AgreedPair} :
    p ∈ extract_agreed df ↔
      ∃ r ∈ df, r.text ∈ agreedTexts df ∧ r.text = p.text ∧ r.label = p.label := by
  simp only [extract_agreed, mem_dedupFirst, List.mem_map, List.mem_filter,
    decide_eq_true_eq]
  constructor
  · rintro ⟨r, ⟨hr, hag⟩, hp⟩
    exact ⟨r, hr, hag, by rw [← hp], by rw [← hp]⟩
  · rintro ⟨r, hr, hag, h1, h2⟩
    refine ⟨r, ⟨hr, hag⟩, ?_⟩
    cases p
    simp_all

/-- For an agreed text, every one of its rows in the table carries the same
label. -/
theorem label_unique_of_agreed {df : AnnotationTable} {t : String}
    (h1 : (labelsOf df t).length = 1) :
    ∀ r ∈ df, r.text = t → ∀ r2 ∈ df, r2.text = t → r.label = r2.label := by
  obtain ⟨L, hL⟩ := List.length_eq_one.mp h1
  intro r hr ht r2 hr2 ht2
  have m1 : r.label ∈ labelsOf df t := mem_labelsOf.mpr ⟨r, hr, ht, rfl⟩
  have m2 : r2.label ∈ labelsOf df t := mem_labelsOf.mpr ⟨r2, hr2, ht2, rfl⟩
  rw [hL] at m1 m2
  rw [List.mem_singleton.mp m1, List.mem_singleton.mp m2]

theorem pairCount_of_agreed {df : AnnotationTable} {t : String}
    (ht : t ∈ agreedTexts df) : pairCount df t = 1 := by
  obtain ⟨htx, hlen⟩ := mem_agreedTexts.mp ht
  obtain ⟨r0, hr0, ht0⟩ := mem_textsOf.mp htx
  unfold pairCount
  refine length_filter_eq_one (a := ⟨t, r0.label⟩) (nodup_dedupFirst _) ?_ (by simp) ?_
  · exact mem_extract_agreed.mpr ⟨r0, hr0, by rw [ht0]; exact ht, ht0, rfl⟩
  · intro p hp hq
    have hqt : p.text = t := by simpa using hq
    obtain ⟨r, hr, _, hrt, hrl⟩ := mem_extract_agreed.mp hp
    have : r.label = r0.label :=
      label_unique_of_agreed hlen r hr (by rw [hrt, hqt]) r0 hr0 ht0
    cases p
    simp_all

theorem pairCount_of_not_agreed {df : AnnotationTable} {t : String}
    (ht : t ∉ agreedTexts df) : pairCount df t = 0 := by
  unfold pairCount
  rw [List.length_eq_zero, List.filter_eq_nil_iff]
  intro p hp hq
  have hqt : p.text = t := by simpa using hq
  obtain ⟨r, _, hag, hrt, _⟩ := mem_extract_agreed.mp hp
  rw [hrt, hqt] at hag
  exact ht hag

/-- `(l ++ [t]).getD l.length d = t`: reading the freshly appended cell. -/
theorem getD_append_length {α : Type} (l : List α) (t d : α) :
    (l ++ [t]).getD l.length d = t := by
  induction l with
  | nil => rfl
  | cons a l ih => simp [ih]

/-! ### Claims -/

/-- C2. Confidence filter correctness: for every table and every threshold
τ, `filter_by_confidence` returns exactly the rows whose confidence score is
≥ τ (the boundary row with score = τ is retained, a row strictly below τ is
dropped, with multiplicity), and the surviving rows keep their relative
input order (the result is a sublist of the input). -/
theorem C2_filter_correct (df : AnnotationTable) (τ : ℚ) :
    List.Sublist (filter_by_confidence df τ) df
    ∧ (∀ r : AnnotationRow,
        r ∈ filter_by_confidence df τ ↔
          r ∈ df ∧ ∃ s, r.confidence_score = some s ∧ τ ≤ s)
    ∧ (∀ (r : AnnotationRow) (s : ℚ), r.confidence_score = some s →
        (τ ≤ s → (filter_by_confidence df τ).count r = df.count r)
        ∧ (s < τ → (filter_by_confidence df τ).count r = 0)) := by
  refine ⟨List.filter_sublist df, ?_, ?_⟩
  · intro r
    simp only [filter_by_confidence, List.mem_filter]
    constructor
    · rintro ⟨hr, hk⟩
      refine ⟨hr, ?_⟩
      cases hs : r.confidence_score with
      | none => rw [keepRow, hs] at hk; cases hk
      | some s =>
        rw [keepRow, hs] at hk
        exact ⟨s, rfl, by simpa using hk⟩
    · rintro ⟨hr, s, hs, hle⟩
      exact ⟨hr, by rw [keepRow, hs]; exact decide_eq_true hle⟩
  · intro r s hs
    constructor
    · intro hle
      exact List.count_filter (by rw [keepRow, hs]; simpa using hle)
    · intro hlt
      rw [List.count_eq_zero]
      intro hmem
      have hk := (List.mem_filter.mp hmem).2
      rw [keepRow, hs] at hk
      exact absurd (by simpa using hk) (not_le.mpr hlt)

/-- Closed instance of C2: the boundary row (score = τ = 1) is kept and the
below-threshold row (score 0) is dropped. -/
theorem C2_filter_correct_witness :
    (⟨"a", "x", "A1", some 1⟩ : AnnotationRow) ∈
      filter_by_confidence [⟨"a", "x", "A1", some 1⟩, ⟨"b", "y", "A2", some 0⟩] 1
    ∧ (filter_by_confidence [⟨"a", "x", "A1", some 1⟩, ⟨"b", "y", "A2", some 0⟩] 1).count
        ⟨"b", "y", "A2", some 0⟩ = 0 := by
  have h := C2_filter_correct [⟨"a", "x", "A1", some 1⟩, ⟨"b", "y", "A2", some 0⟩] 1
  exact ⟨(h.2.1 _).mpr ⟨by decide, 1, rfl, le_refl 1⟩,
    (h.2.2 ⟨"b", "y", "A2", some 0⟩ 0 rfl).2 (by decide)⟩

/-- C8. Filter purity: at the object level, `filter_by_confidence` reads its
argument frame and allocates a fresh copy; every frame that existed before
the call — the input in particular — is unchanged after it, the new frame's
value is the filtered table, and the returned reference is distinct from the
input reference, so the raw table cannot be altered through the filtered
one. -/
theorem C8_filter_pure (s : FrameStore) (ref : Nat) (τ : ℚ) :
    (∀ j, j < s.frames.length →
      readFrame (filter_by_confidence_op s ref τ).1 j = readFrame s j)
    ∧ readFrame (filter_by_confidence_op s ref τ).1 (filter_by_confidence_op s ref τ).2
        = filter_by_confidence (readFrame s ref) τ
    ∧ (filter_by_confidence_op s ref τ).1.frames.length = s.frames.length + 1
    ∧ (ref < s.frames.length → (filter_by_confidence_op s ref τ).2 ≠ ref) := by
  refine ⟨?_, ?_, by simp [filter_by_confidence_op, allocFrame], ?_⟩
  · intro j hj
    simp only [filter_by_confidence_op, allocFrame, readFrame]
    exact List.getD_append _ _ _ _ hj
  · simp only [filter_by_confidence_op, allocFrame, readFrame]
    exact getD_append_length _ _ _
  · intro href
    simp only [filter_by_confidence_op, allocFrame]
    omega

/-- Closed instance of C8: filtering the only frame of a one-frame store
leaves that frame unchanged and returns a distinct reference. -/
theorem C8_filter_pure_witness :
    readFrame (filter_by_confidence_op ⟨[[⟨"a", "x", "A1", some 0⟩]]⟩ 0 1).1 0
        = [⟨"a", "x", "A1", some 0⟩]
    ∧ (filter_by_confidence_op ⟨[[⟨"a", "x", "A1", some 0⟩]]⟩ 0 1).2 ≠ 0 := by
  have h := C8_filter_pure ⟨[[⟨"a", "x", "A1", some 0⟩]]⟩ 0 1
  exact ⟨(h.1 0 (by decide)).trans (by decide), h.2.2.2 (by decide)⟩

/-- C10. Missing-score rows are silently rejected: a row whose
`confidence_score` is missing (pandas NaN) never survives
`filter_by_confidence` for any threshold — the comparison is simply not
satisfied — and the run proceeds exactly as if such rows had been dropped
beforehand; the embedded filter is total, so no error is raised and no
audit entry mentions the row. -/
theorem C10_missing_score_dropped (df : AnnotationTable) (τ : ℚ) :
    (∀ r : AnnotationRow, r ∈ df → r.confidence_score = none →
        r ∉ filter_by_confidence df τ)
    ∧ (∀ r : AnnotationRow, r ∈ filter_by_confidence df τ → r.confidence_score ≠ none)
    ∧ filter_by_confidence df τ
        = filter_by_confidence (df.filter (fun r => r.confidence_score.isSome)) τ := by
  have hmem : ∀ r : AnnotationRow, r ∈ filter_by_confidence df τ →
      r.confidence_score ≠ none := by
    intro r hr hnone
    have hk := (List.mem_filter.mp hr).2
    rw [keepRow, hnone] at hk
    cases hk
  refine ⟨fun r _ hnone hr => hmem r hr hnone, hmem, ?_⟩
  unfold filter_by_confidence
  rw [List.filter_filter]
  refine List.filter_congr ?_
  intro r _
  cases hs : r.confidence_score <;> simp [keepRow, hs]

/-- Closed instance of C10: a row with a missing score is dropped even by a
zero threshold. -/
theorem C10_missing_score_dropped_witness :
    (⟨"a", "x", "A1", none⟩ : AnnotationRow) ∉
      filter_by_confidence [⟨"a", "x", "A1", none⟩] 0 := by
  have h := C10_missing_score_dropped [⟨"a", "x", "A1", none⟩] 0
  exact h.1 ⟨"a", "x", "A1", none⟩ (by decide) rfl

/-- C9. Implicit ordering of disagreement records: `groupby("text")` sorts
its keys, so the texts of the records returned by `detect_disagreements`
are sorted lexicographically and are a permutation of the disagreed texts
(which are listed here in first-occurrence order) — i.e. the record
sequence is the sorted sequence of the disagreed texts, not their
first-occurrence sequence. -/
theorem C9_records_sorted_by_text (df : AnnotationTable) :
    List.Sorted (fun a b => a ≤ b) ((detect_disagreements df).map DisagreementRecord.text)
    ∧ List.Perm ((detect_disagreements df).map DisagreementRecord.text)
        (disagreedTexts df) := by
  rw [detect_texts]
  exact ⟨List.sorted_insertionSort _ _, List.perm_insertionSort _ _⟩

/-- C1. Partition: after confidence filtering, every distinct text of the
filtered table is classified exactly once — a text with two or more
distinct labels yields exactly one disagreement record and no agreed pair,
a text with exactly one distinct label yields exactly one agreed pair and
no record, and no third case exists; a text absent from the filtered table
(dropped by the filter) appears in neither output. -/
theorem C1_partition (df : AnnotationTable) (τ : ℚ) (t : String) :
    (t ∈ textsOf (filter_by_confidence df τ) →
      ((labelsOf (filter_by_confidence df τ) t).length = 1
          ∨ 1 < (labelsOf (filter_by_confidence df τ) t).length)
      ∧ (1 < (labelsOf (filter_by_confidence df τ) t).length →
          recordCount (filter_by_confidence df τ) t = 1
          ∧ pairCount (filter_by_confidence df τ) t = 0)
      ∧ ((labelsOf (filter_by_confidence df τ) t).length = 1 →
          pairCount (filter_by_confidence df τ) t = 1
          ∧ recordCount (filter_by_confidence df τ) t = 0))
    ∧ (t ∉ textsOf (filter_by_confidence df τ) →
        recordCount (filter_by_confidence df τ) t = 0
        ∧ pairCount (filter_by_confidence df τ) t = 0) := by
  constructor
  · intro htx
    refine ⟨?_, ?_, ?_⟩
    · have := labelsOf_length_pos htx
      omega
    · intro hgt
      have hdis : t ∈ disagreedTexts (filter_by_confidence df τ) :=
        mem_disagreedTexts.mpr ⟨htx, hgt⟩
      have hnag : t ∉ agreedTexts (filter_by_confidence df τ) := by
        intro hag
        have := (mem_agreedTexts.mp hag).2
        omega
      exact ⟨recordCount_of_disagreed hdis, pairCount_of_not_agreed hnag⟩
    · intro heq
      have hag : t ∈ agreedTexts (filter_by_confidence df τ) :=
        mem_agreedTexts.mpr ⟨htx, heq⟩
      have hnd : t ∉ disagreedTexts (filter_by_confidence df τ) := by
        intro hdis
        have := (mem_disagreedTexts.mp hdis).2
        omega
      exact ⟨pairCount_of_agreed hag, recordCount_of_not_disagreed hnd⟩
  · intro htx
    have hnd : t ∉ disagreedTexts (filter_by_confidence df τ) :=
      fun h => htx (mem_disagreedTexts.mp h).1
    have hnag : t ∉ agreedTexts (filter_by_confidence df τ) :=
      fun h => htx (mem_agreedTexts.mp h).1
    exact ⟨recordCount_of_not_disagreed hnd, pairCount_of_not_agreed hnag⟩

/-- Closed instance of C1: in the end-to-end example, the disagreed text
"bye" yields exactly one record and no pair. -/
theorem C1_partition_witness :
    recordCount (filter_by_confidence exampleTable 0) "bye" = 1
    ∧ pairCount (filter_by_confidence exampleTable 0) "bye" = 0 :=
  ((C1_partition exampleTable 0 "bye").1 (by decide)).2.1 (by decide)

/-- C3. Disagreement record correctness: for every filtered table and every
text of it with two or more distinct labels, `detect_disagreements`
produces exactly one record for that text; its `labels` field is exactly
the set of distinct labels of the text's rows, and its
`annotators`/`confidence_scores` fields are the two columns of the text's
row list — equal length, index `i` of both coming from row `i`, rows taken
in the filtered table's own order (`rowsFor` is a sublist of it). -/
theorem C3_record_correct (df : AnnotationTable) (τ : ℚ) (t : String)
    (htx : t ∈ textsOf (filter_by_confidence df τ))
    (hgt : 1 < (labelsOf (filter_by_confidence df τ) t).length) :
    recordCount (filter_by_confidence df τ) t = 1
    ∧ mkRecord (filter_by_confidence df τ) t
        ∈ detect_disagreements (filter_by_confidence df τ)
    ∧ (∀ rec ∈ detect_disagreements (filter_by_confidence df τ),
        rec.text = t → rec = mkRecord (filter_by_confidence df τ) t)
    ∧ (∀ L : String, L ∈ (mkRecord (filter_by_confidence df τ) t).labels ↔
        ∃ r ∈ rowsFor (filter_by_confidence df τ) t, r.label = L)
    ∧ (mkRecord (filter_by_confidence df τ) t).labels.Nodup
    ∧ (mkRecord (filter_by_confidence df τ) t).annotators.length
        = (rowsFor (filter_by_confidence df τ) t).length
    ∧ (mkRecord (filter_by_confidence df τ) t).confidence_scores.length
        = (rowsFor (filter_by_confidence df τ) t).length
    ∧ (∀ i : Nat,
        (mkRecord (filter_by_confidence df τ) t).annotators[i]?
            = ((rowsFor (filter_by_confidence df τ) t)[i]?).map
                AnnotationRow.annotator_id
        ∧ (mkRecord (filter_by_confidence df τ) t).confidence_scores[i]?
            = ((rowsFor (filter_by_confidence df τ) t)[i]?).map
                AnnotationRow.confidence_score)
    ∧ List.Sublist (rowsFor (filter_by_confidence df τ) t)
        (filter_by_confidence df τ) := by
  have hdis : t ∈ disagreedTexts (filter_by_confidence df τ) :=
    mem_disagreedTexts.mpr ⟨htx, hgt⟩
  refine ⟨recordCount_of_disagreed hdis, ?_, ?_, ?_, nodup_dedupFirst _, by
    simp [mkRecord], by simp [mkRecord], ?_, List.filter_sublist _⟩
  · have hsorted : t ∈ List.insertionSort (fun a b => a ≤ b)
        (disagreedTexts (filter_by_confidence df τ)) :=
      ((List.perm_insertionSort _ _).mem_iff).mpr hdis
    exact List.mem_map.mpr ⟨t, hsorted, rfl⟩
  · intro rec hrec hrt
    obtain ⟨s, _, hmk⟩ := List.mem_map.mp hrec
    have hst : s = t := by rw [← hrt, ← hmk]; rfl
    rw [← hmk, hst]
  · intro L
    simp only [mkRecord, labelsOf, mem_dedupFirst, List.mem_map]
  · intro i
    constructor <;> simp [mkRecord]

/-- Closed instance of C3: a text annotated A, A, B by three annotators
yields exactly one record whose annotator column has length 3. -/
theorem C3_record_correct_witness :
    recordCount (filter_by_confidence
      [⟨"t", "A", "A1", some 1⟩, ⟨"t", "A", "A2", some 1⟩,
       ⟨"t", "B", "A3", some 1⟩] 0) "t" = 1
    ∧ (mkRecord (filter_by_confidence
        [⟨"t", "A", "A1", some 1⟩, ⟨"t", "A", "A2", some 1⟩,
         ⟨"t", "B", "A3", some 1⟩] 0) "t").annotators.length
      = (rowsFor (filter_by_confidence
          [⟨"t", "A", "A1", some 1⟩, ⟨"t", "A", "A2", some 1⟩,
           ⟨"t", "B", "A3", some 1⟩] 0) "t").length := by
  have h := C3_record_correct
    [⟨"t", "A", "A1", some 1⟩, ⟨"t", "A", "A2", some 1⟩, ⟨"t", "B", "A3", some 1⟩]
    0 "t" (by decide) (by decide)
  exact ⟨h.1, h.2.2.2.2.2.1⟩

/-- C4. Agreed extraction correctness: `extract_agreed` returns exactly one
pair per agreed text (duplicate rows from several annotators collapse into
one), every returned pair comes from a row of an agreed text, the output
is duplicate-free, and its order is stable under the filtered table's row
order (it is a sublist of the row-wise (text, label) projection). -/
theorem C4_extract_agreed_correct (df : AnnotationTable) (τ : ℚ) :
    (∀ t ∈ agreedTexts (filter_by_confidence df τ),
        pairCount (filter_by_confidence df τ) t = 1)
    ∧ (∀ p ∈ extract_agreed (filter_by_confidence df τ),
        p.text ∈ agreedTexts (filter_by_confidence df τ)
        ∧ ∃ r ∈ filter_by_confidence df τ, r.text = p.text ∧ r.label = p.label)
    ∧ (extract_agreed (filter_by_confidence df τ)).Nodup
    ∧ List.Sublist (extract_agreed (filter_by_confidence df τ))
        ((filter_by_confidence df τ).map (fun r => AgreedPair.mk r.text r.label)) := by
  refine ⟨fun t ht => pairCount_of_agreed ht, ?_, nodup_dedupFirst _,
    (dedupFirst_sublist _).trans ((List.filter_sublist _).map _)⟩
  intro p hp
  obtain ⟨r, hr, hag, hrt, hrl⟩ := mem_extract_agreed.mp hp
  exact ⟨hrt ▸ hag, r, hr, hrt, hrl⟩

/-- Closed instance of C4: a text with two rows both labeled "A" yields
exactly one exported pair. -/
theorem C4_extract_agreed_correct_witness :
    pairCount (filter_by_confidence
      [⟨"t", "A", "A1", some 1⟩, ⟨"t", "A", "A2", some 1⟩] 0) "t" = 1 :=
  (C4_extract_agreed_correct
    [⟨"t", "A", "A1", some 1⟩, ⟨"t", "A", "A2", some 1⟩] 0).1 "t" (by decide)

/-- C5. Export format: `export_jsonl` writes exactly one line per pair —
each being the rendering of a JSON object with exactly the two
string-valued members `text` and `label` — it preserves non-ASCII
characters literally (no escaping above U+007F), and the resulting file
content is independent of whatever the destination held before (mode "w"
truncates); an empty pair sequence yields empty content. -/
theorem C5_export_format (pairs : List AgreedPair) (old₁ old₂ : String) :
    export_jsonl_file pairs old₁ = export_jsonl_file pairs old₂
    ∧ (export_jsonl pairs).length = pairs.length
    ∧ (pairs = [] → export_jsonl_file pairs old₁ = "")
    ∧ (∀ i : Nat, (export_jsonl pairs)[i]?
        = (pairs[i]?).map (fun p =>
            renderObj [("text", JsonVal.str p.text), ("label", JsonVal.str p.label)]))
    ∧ (∀ c : Char, 127 < c.toNat → escapeChar c = String.singleton c) := by
  refine ⟨rfl, by simp [export_jsonl], ?_, ?_, ?_⟩
  · rintro rfl
    rfl
  · intro i
    simp only [export_jsonl, List.getElem?_map]
    rfl
  · intro c hc
    have h1 : c ≠ '\\' := fun h => absurd hc (by rw [h]; decide)
    have h2 : c ≠ '"' := fun h => absurd hc (by rw [h]; decide)
    have h3 : c ≠ Char.ofNat 8 := fun h => absurd hc (by rw [h]; decide)
    have h4 : c ≠ Char.ofNat 9 := fun h => absurd hc (by rw [h]; decide)
    have h5 : c ≠ Char.ofNat 10 := fun h => absurd hc (by rw [h]; decide)
    have h6 : c ≠ Char.ofNat 12 := fun h => absurd hc (by rw [h]; decide)
    have h7 : c ≠ Char.ofNat 13 := fun h => absurd hc (by rw [h]; decide)
    have h8 : ¬ c.toNat < 32 := by omega
    simp [escapeChar, h1, h2, h3, h4, h5, h6, h7, h8]

/-- Closed instance of C5: the empty pair list exports empty content over
stale content, and U+00E9 passes through `escapeChar` unescaped. -/
theorem C5_export_format_witness :
    export_jsonl_file [] "stale content" = ""
    ∧ escapeChar (Char.ofNat 233) = String.singleton (Char.ofNat 233) := by
  have h := C5_export_format [] "stale content" ""
  exact ⟨h.2.2.1 rfl, h.2.2.2.2 (Char.ofNat 233) (by decide)⟩

/-- C6. Idempotence of the run: the whole pipeline is a deterministic
function of the raw table, and the export overwrites rather than appends,
so running it a second time on the same unmodified input — starting from
the file the first run produced — reproduces the first run's export
byte for byte (indeed the whole run result is independent of the previous
file content). -/
theorem C6_run_idempotent (df_raw : AnnotationTable) (oldExport : String) :
    (mainRun df_raw (mainRun df_raw oldExport).exportContent).exportContent
      = (mainRun df_raw oldExport).exportContent
    ∧ ∀ old₂ : String, mainRun df_raw oldExport = mainRun df_raw old₂ :=
  ⟨rfl, fun _ => rfl⟩

/-- C7. Zero-disagreements marker: whenever the disagreement list of a run
is empty — in particular when no rows survive the confidence filter — the
audit log of the run consists of exactly the single explicit entry
"Disagreed samples: 0", and the run still completes with the (possibly
zero-line) export of the agreed pairs. -/
theorem C7_zero_disagreements_marker (df_raw : AnnotationTable) (oldExport : String)
    (h : detect_disagreements (filter_by_confidence df_raw CONF_THRESHOLD) = []) :
    (mainRun df_raw oldExport).auditLog = [AuditEntry.msg "Disagreed samples: 0"]
    ∧ (mainRun df_raw oldExport).exportContent
        = unlines (export_jsonl (extract_agreed
            (filter_by_confidence df_raw CONF_THRESHOLD))) := by
  constructor
  · simp [mainRun, auditEntries, h]
  · rfl

/-- Closed instance of C7: the empty table survives nothing, yet the run
emits the single marker entry and a zero-line export. -/
theorem C7_zero_disagreements_marker_witness :
    (mainRun [] "previous content").auditLog = [AuditEntry.msg "Disagreed samples: 0"]
    ∧ (mainRun [] "previous content").exportContent = "" := by
  have h := C7_zero_disagreements_marker [] "previous content" rfl
  exact ⟨h.1, h.2⟩

/-!
Concrete sanity checks of the embedding against the script's observable
behaviour.
-/

example :
    encodeLine ⟨"hi", "greet"⟩ = "\x7b\"text\": \"hi\", \"label\": \"greet\"\x7d" := rfl

example :
    unlines (export_jsonl [⟨"hi", "greet"⟩]) =
      "\x7b\"text\": \"hi\", \"label\": \"greet\"\x7d\n" := rfl

example :
    detect_disagreements
      [⟨"t", "A", "A1", some 1⟩, ⟨"t", "A", "A2", some 1⟩, ⟨"t", "B", "A3", some 1⟩] =
      [⟨"t", ["A", "B"], ["A1", "A2", "A3"], [some 1, some 1, some 1]⟩] := by decide

example :
    detect_disagreements
      [⟨"bye", "farewell", "A1", some 1⟩, ⟨"hi", "greet", "A1", some 1⟩,
       ⟨"hi", "greet", "A2", some 1⟩, ⟨"bye", "greet", "A2", some 1⟩] =
      [⟨"bye", ["farewell", "greet"], ["A1", "A2"], [some 1, some 1]⟩] := by decide

example :
    extract_agreed
      [⟨"hi", "greet", "A1", some 1⟩, ⟨"hi", "greet", "A2", some 1⟩,
       ⟨"bye", "greet", "A2", some 0⟩] =
      [⟨"hi", "greet"⟩, ⟨"bye", "greet"⟩] := by decide

example :
    filter_by_confidence
      [⟨"hi", "greet", "A1", some 1⟩, ⟨"bye", "greet", "A2", some 0⟩] 1 =
      [⟨"hi", "greet", "A1", some 1⟩] := by decide
